import Mathlib

/-!
# Verification of the libpcc grid-based point-cloud codec

Shallow embedding of `src/include/PointCloudGridEncoder.hpp` (libpcc).
The repository under verification ships only this header: the inline
member functions (`EncodingSettings::getQuantizationStepSize`,
`GlobalHeader::getByteSize`, `GridHeader::getByteSize`,
`CellHeader::getByteSize`) are embedded from the source; the out-of-line
members (`encode`, `decode`, `buildPointCloudGrid`, `writeToAppendix`,
`getPointCloudGrid`, blacklist and cell serialization) are modelled from
the specification, as marked on each definition.

C++ `float` arithmetic is modelled by exact rationals (`ℚ`), `size_t`
and other unsigned integers by `ℕ`.  An out-of-bounds `std::vector`
access (undefined behaviour in C++) is modelled by `Option`, with `none`
standing for the undefined access.
-/

/-- A 3D vector of rationals, modelling `Vec<float>` from the sources. -/
structure Vec3Q where
  x : ℚ
  y : ℚ
  z : ℚ
deriving DecidableEq

/-- A 3D vector of naturals, modelling `Vec8` / `Vec<int>` and
unsigned colour triples from the sources. -/
structure Vec3N where
  x : ℕ
  y : ℕ
  z : ℕ
deriving DecidableEq

/-- Axis-aligned bounding box with rational corners, modelling
`BoundingBox` (two `Vec<float>` points `min`, `max`). -/
structure BoundingBox where
  min : Vec3Q
  max : Vec3Q
deriving DecidableEq

/-- An uncompressed voxel: float position and 8-bit colour triple,
modelling `UncompressedVoxel`. -/
structure UncompressedVoxel where
  pos : Vec3Q
  color : Vec3N
deriving DecidableEq

/-- Modelled from the spec: `GridPrecisionDescriptor` (declared in the
missing `PointCloudGrid.hpp`): a bounding box, grid dimensions and one
precision record per cell, in linear-index order, for positions and for
colours.  Each `Vec3N` entry holds three `BitCount` values. -/
structure GridPrecisionDescriptor where
  bounding_box : BoundingBox
  dimensions : Vec3N
  point_precision : List Vec3N
  color_precision : List Vec3N

/-- `PointCloudGridEncoder::EncodingSettings` from the header. -/
structure EncodingSettings where
  grid_precision : GridPrecisionDescriptor
  verbose : Bool
  num_threads : ℤ
  irrelevance_coding : Bool
  entropy_coding : Bool
  appendix_size : ℕ

namespace EncodingSettings

/-- `EncodingSettings::getQuantizationStepSize` embedded from the
header (lines 40-61).  The guard on `cell_idx` only prints a
notification and does not return early; the body then evaluates
`grid_precision.point_precision[cell_idx]` unconditionally, which in
C++ is an out-of-bounds access when `cell_idx` is not in range.  That
undefined access is modelled by `Option.map` over `List.get?`: `none`
stands for the out-of-bounds read. -/
def getQuantizationStepSize (s : EncodingSettings) (cell_idx : ℕ) :
    Option Vec3Q :=
  (s.grid_precision.point_precision.get? cell_idx).map fun prec =>
    let bb : BoundingBox := s.grid_precision.bounding_box
    let dimensions : Vec3N := s.grid_precision.dimensions
    let nqx : ℚ := 2 ^ prec.x
    let nqy : ℚ := 2 ^ prec.y
    let nqz : ℚ := 2 ^ prec.z
    { x := ((bb.max.x - bb.min.x) / (dimensions.x : ℚ)) / nqx
      y := ((bb.max.y - bb.min.y) / (dimensions.y : ℚ)) / nqy
      z := ((bb.max.z - bb.min.z) / (dimensions.z : ℚ)) / nqz }

end EncodingSettings

/-!
## Byte sizes of the serialized headers

The examples' Makefile targets 64-bit Linux (`-DLINUX`, LP64), fixing
`sizeof(bool) = 1`, `sizeof(unsigned long) = 8`, `sizeof(unsigned) = 4`,
`sizeof(float) = 4`, `sizeof(uint8_t) = 1`.
-/

/-- `sizeof(bool)` on the target platform. -/
def sizeofBool : ℕ := 1

/-- `sizeof(unsigned long)` on the target platform (LP64). -/
def sizeofUnsignedLong : ℕ := 8

/-- `sizeof(unsigned)` on the target platform. -/
def sizeofUnsigned : ℕ := 4

/-- `sizeof(float)` on the target platform. -/
def sizeofFloat : ℕ := 4

/-- `sizeof(uint8_t)`. -/
def sizeofUint8 : ℕ := 1

/-- Modelled from the spec: `sizeof(BitCount)`.  `BitCount` is declared
in the missing `PointCloudGrid.hpp`; the spec fixes it as "a small
unsigned (fits in one byte)". -/
def sizeofBitCount : ℕ := 1

/-- `PointCloudGridEncoder::GlobalHeader` from the header: entropy flag,
uncompressed size, appendix size. -/
structure GlobalHeader where
  entropy_coding : Bool
  uncompressed_size : ℕ
  appendix_size : ℕ
deriving DecidableEq

/-- `GlobalHeader::getByteSize` embedded from the header (lines
122-125): `sizeof(bool) + 2*sizeof(unsigned long)`. -/
def GlobalHeader.getByteSize : ℕ := sizeofBool + 2 * sizeofUnsignedLong

/-- `PointCloudGridEncoder::GridHeader` from the header: grid
dimensions, bounding box and blacklist length. -/
structure GridHeader where
  dimensions : Vec3N
  bounding_box : BoundingBox
  num_blacklist : ℕ
deriving DecidableEq

/-- `GridHeader::getByteSize` embedded from the header (lines 146-149):
`3*sizeof(uint8_t) + 6*sizeof(float) + sizeof(unsigned)`. -/
def GridHeader.getByteSize : ℕ := 3 * sizeofUint8 + 6 * sizeofFloat + sizeofUnsigned

/-- `PointCloudGridEncoder::CellHeader` from the header: cell index
(debug only, not serialized), six per-component bit widths and the
number of elements stored in the cell. -/
structure CellHeader where
  cell_idx : ℕ
  point_encoding : Vec3N
  color_encoding : Vec3N
  num_elements : ℕ
deriving DecidableEq

/-- `CellHeader::getByteSize` embedded from the header (lines 176-179):
`1*sizeof(unsigned) + 6*sizeof(BitCount)`. -/
def CellHeader.getByteSize : ℕ := 1 * sizeofUnsigned + 6 * sizeofBitCount

/-- Little-endian byte image of an unsigned value in `w` bytes,
modelling a raw `memcpy` of a `w`-byte unsigned integer. -/
def leBytes (w : ℕ) (v : ℕ) : List ℕ :=
  (List.range w).map fun k => v / 256 ^ k % 256

/-- Modelled from the spec: `PointCloudGridEncoder::encodeCellHeader`
(declared at header line 359, implementation missing).  Serializes the
six `BitCount` fields and `num_elements`; per the header comment on
`cell_idx` ("not added to message (debug use)") the cell index is not
written. -/
def encodeCellHeaderBytes (h : CellHeader) : List ℕ :=
  [h.point_encoding.x % 256, h.point_encoding.y % 256, h.point_encoding.z % 256,
   h.color_encoding.x % 256, h.color_encoding.y % 256, h.color_encoding.z % 256]
    ++ leBytes sizeofUnsigned h.num_elements

/-!
## Claims C5, C6, C7, C9: header-backed definitions
-/

/-- C5: for every cell index in range of the precision descriptor,
`EncodingSettings::getQuantizationStepSize` returns, per axis,
`((bounding_box.max - bounding_box.min) / dimensions) / 2 ^
point_precision[cell_idx]` — the cell extent on that axis divided by the
number of quantization values for that cell's position bit width. -/
theorem c5_quantization_step_size (s : EncodingSettings) (cell_idx : ℕ)
    (h : cell_idx < s.grid_precision.point_precision.length) :
    s.getQuantizationStepSize cell_idx =
      some
        { x := ((s.grid_precision.bounding_box.max.x - s.grid_precision.bounding_box.min.x) /
              (s.grid_precision.dimensions.x : ℚ)) /
            2 ^ (s.grid_precision.point_precision.getD cell_idx ⟨0, 0, 0⟩).x
          y := ((s.grid_precision.bounding_box.max.y - s.grid_precision.bounding_box.min.y) /
              (s.grid_precision.dimensions.y : ℚ)) /
            2 ^ (s.grid_precision.point_precision.getD cell_idx ⟨0, 0, 0⟩).y
          z := ((s.grid_precision.bounding_box.max.z - s.grid_precision.bounding_box.min.z) /
              (s.grid_precision.dimensions.z : ℚ)) /
            2 ^ (s.grid_precision.point_precision.getD cell_idx ⟨0, 0, 0⟩).z } := by
  unfold EncodingSettings.getQuantizationStepSize
  rw [List.getD_eq_getElem?_getD, List.get?_eq_getElem?]
  rw [List.getElem?_eq_getElem h]
  rfl

/-- A concrete `EncodingSettings` value used to instantiate theorems
with hypotheses. -/
def sampleSettings : EncodingSettings :=
  { grid_precision :=
      { bounding_box := { min := ⟨0, 0, 0⟩, max := ⟨1, 1, 1⟩ }
        dimensions := ⟨1, 1, 1⟩
        point_precision := [⟨8, 8, 8⟩]
        color_precision := [⟨8, 8, 8⟩] }
    verbose := false
    num_threads := 24
    irrelevance_coding := true
    entropy_coding := true
    appendix_size := 2 }

/-- Witness for C5 at a concrete settings value and in-range index. -/
theorem c5_quantization_step_size_witness :
    0 < sampleSettings.grid_precision.point_precision.length ∧
      sampleSettings.getQuantizationStepSize 0 =
        some
          { x := ((sampleSettings.grid_precision.bounding_box.max.x -
                sampleSettings.grid_precision.bounding_box.min.x) /
                (sampleSettings.grid_precision.dimensions.x : ℚ)) /
              2 ^ (sampleSettings.grid_precision.point_precision.getD 0 ⟨0, 0, 0⟩).x
            y := ((sampleSettings.grid_precision.bounding_box.max.y -
                sampleSettings.grid_precision.bounding_box.min.y) /
                (sampleSettings.grid_precision.dimensions.y : ℚ)) /
              2 ^ (sampleSettings.grid_precision.point_precision.getD 0 ⟨0, 0, 0⟩).y
            z := ((sampleSettings.grid_precision.bounding_box.max.z -
                sampleSettings.grid_precision.bounding_box.min.z) /
                (sampleSettings.grid_precision.dimensions.z : ℚ)) /
              2 ^ (sampleSettings.grid_precision.point_precision.getD 0 ⟨0, 0, 0⟩).z } :=
  ⟨by decide, c5_quantization_step_size sampleSettings 0 (by decide)⟩

/-- C6: `GlobalHeader::getByteSize()` is exactly 17 bytes (one boolean
plus two 8-byte unsigned integers) and `GridHeader::getByteSize()` is
exactly 31 bytes (three `uint8` dimensions, six `float32` bounding-box
components, one `uint32` blacklist count). -/
theorem c6_header_byte_sizes :
    GlobalHeader.getByteSize = 17 ∧ GridHeader.getByteSize = 31 := by
  constructor <;> rfl

/-- C7: a serialized `CellHeader` occupies exactly
`6*sizeof(BitCount) + sizeof(unsigned)` bytes, carrying the six
per-component bit widths and `num_elements`; the `cell_idx` field is
never serialized, so the byte image is independent of it. -/
theorem c7_cell_header_wire :
    CellHeader.getByteSize = 6 * sizeofBitCount + sizeofUnsigned ∧
      (∀ h : CellHeader, (encodeCellHeaderBytes h).length = CellHeader.getByteSize) ∧
      ∀ (h : CellHeader) (j : ℕ),
        encodeCellHeaderBytes { h with cell_idx := j } = encodeCellHeaderBytes h := by
  refine ⟨by rfl, fun h => ?_, fun h j => rfl⟩
  simp [encodeCellHeaderBytes, leBytes, CellHeader.getByteSize, sizeofUnsigned, sizeofBitCount]

/-- C9: the guard in `EncodingSettings::getQuantizationStepSize` does
not prevent out-of-range access: the comparison `cell_idx < 0` on an
unsigned `size_t` is always false, and for every `cell_idx` at or past
the end of `point_precision` the function still evaluates
`point_precision[cell_idx]` — an out-of-bounds access, modelled by the
result `none` — instead of returning early from the error branch. -/
theorem c9_guard_ineffective (s : EncodingSettings) (cell_idx : ℕ) :
    ¬cell_idx < 0 ∧
      (s.grid_precision.point_precision.length ≤ cell_idx →
        s.getQuantizationStepSize cell_idx = none) := by
  refine ⟨Nat.not_lt_zero cell_idx, fun hle => ?_⟩
  unfold EncodingSettings.getQuantizationStepSize
  rw [List.get?_eq_getElem?, List.getElem?_eq_none hle]
  rfl

/-- Witness for C9 at a concrete settings value and out-of-range index. -/
theorem c9_guard_ineffective_witness :
    sampleSettings.grid_precision.point_precision.length ≤ 5 ∧
      sampleSettings.getQuantizationStepSize 5 = none :=
  ⟨by decide, (c9_guard_ineffective sampleSettings 5).2 (by decide)⟩

/-!
## Quantizer (spec §4.2)

The Quantizer implementation lives outside the shipped header; it is
modelled from the spec.
-/

/-- Modelled from the spec: the Quantizer (§4.2).  Given a coordinate
`v` in `[lo, hi]` and a bit width `n`, produces
`clamp(floor((v - lo) / (hi - lo) * 2^n), 0, 2^n - 1)`. -/
def quantize (lo hi : ℚ) (n : ℕ) (v : ℚ) : ℕ :=
  (min (max ⌊(v - lo) / (hi - lo) * 2 ^ n⌋ 0) (2 ^ n - 1)).toNat

/-- Modelled from the spec: inverse quantization (§4.2), midpoint
reconstruction `lo + (q + 0.5) / 2^n * (hi - lo)`. -/
def dequantize (lo hi : ℚ) (n : ℕ) (q : ℕ) : ℚ :=
  lo + ((q : ℚ) + 1 / 2) / 2 ^ n * (hi - lo)

/-- The clamped floor used by `quantize` stays within `1/2` of
`x * 2^n` once shifted to the cell midpoint, for `x ∈ [0, 1]`. -/
lemma abs_clamp_mid_sub_le (x : ℚ) (n : ℕ) (hx0 : 0 ≤ x) (hx1 : x ≤ 1) :
    |(((min (max ⌊x * 2 ^ n⌋ 0) (2 ^ n - 1)).toNat : ℚ) + 1 / 2) - x * 2 ^ n| ≤ 1 / 2 := by
  have hm0 : (0 : ℤ) ≤ ⌊x * 2 ^ n⌋ := Int.floor_nonneg.mpr (by positivity)
  have h2n : (0 : ℤ) < 2 ^ n := pow_pos (by norm_num) n
  rw [max_eq_left hm0]
  have hmq0 : (0 : ℤ) ≤ min ⌊x * 2 ^ n⌋ (2 ^ n - 1) := le_min hm0 (by omega)
  have hcast : ((min ⌊x * 2 ^ n⌋ (2 ^ n - 1)).toNat : ℚ) =
      ((min ⌊x * 2 ^ n⌋ (2 ^ n - 1) : ℤ) : ℚ) := by
    exact_mod_cast congrArg (fun z : ℤ => (z : ℚ)) (Int.toNat_of_nonneg hmq0)
  rw [hcast, abs_le]
  have hle : ((min ⌊x * 2 ^ n⌋ (2 ^ n - 1) : ℤ) : ℚ) ≤ x * 2 ^ n :=
    calc ((min ⌊x * 2 ^ n⌋ (2 ^ n - 1) : ℤ) : ℚ) ≤ ((⌊x * 2 ^ n⌋ : ℤ) : ℚ) := by
          exact_mod_cast min_le_left _ _
      _ ≤ x * 2 ^ n := Int.floor_le _
  have hge : x * 2 ^ n ≤ ((min ⌊x * 2 ^ n⌋ (2 ^ n - 1) : ℤ) : ℚ) + 1 := by
    rcases min_cases ⌊x * 2 ^ n⌋ ((2 : ℤ) ^ n - 1) with ⟨hEq, _⟩ | ⟨hEq, _⟩
    · rw [hEq]
      exact (Int.lt_floor_add_one _).le
    · rw [hEq]
      push_cast
      have hx2 : x * 2 ^ n ≤ 1 * 2 ^ n :=
        mul_le_mul_of_nonneg_right hx1 (by positivity)
      linarith
  constructor <;> linarith

/-- Midpoint reconstruction error bound of the quantizer: for
`v ∈ [lo, hi]` the round trip lands within `(hi - lo) / 2^n` of `v`. -/
lemma abs_dequantize_quantize_sub_le (lo hi v : ℚ) (n : ℕ)
    (h1 : lo ≤ v) (h2 : v ≤ hi) :
    |dequantize lo hi n (quantize lo hi n v) - v| ≤ (hi - lo) / 2 ^ n := by
  rcases eq_or_lt_of_le (h1.trans h2) with heq | hlt
  · have hv : v = lo := le_antisymm (heq ▸ h2) h1
    subst hv
    rw [← heq]
    simp [dequantize]
  · have hw0 : (0 : ℚ) < hi - lo := sub_pos.mpr hlt
    have hx0 : 0 ≤ (v - lo) / (hi - lo) := div_nonneg (by linarith) hw0.le
    have hx1 : (v - lo) / (hi - lo) ≤ 1 := by
      rw [div_le_one hw0]; linarith
    have key := abs_clamp_mid_sub_le ((v - lo) / (hi - lo)) n hx0 hx1
    have key2 : |((quantize lo hi n v : ℚ) + 1 / 2) -
        (v - lo) / (hi - lo) * 2 ^ n| ≤ 1 / 2 := by
      simp only [quantize]
      exact key
    have hwne : hi - lo ≠ 0 := hw0.ne'
    have hrw : dequantize lo hi n (quantize lo hi n v) - v =
        (((quantize lo hi n v : ℚ) + 1 / 2) - (v - lo) / (hi - lo) * 2 ^ n) *
          ((hi - lo) / 2 ^ n) := by
      simp only [dequantize]
      field_simp
      ring
    rw [hrw, abs_mul, abs_of_pos (by positivity : (0 : ℚ) < (hi - lo) / 2 ^ n)]
    have ha : (0 : ℚ) ≤ (hi - lo) / 2 ^ n := by positivity
    have h3 := mul_le_mul_of_nonneg_right key2 ha
    linarith

/-- With 0 bits the quantizer always emits 0, independent of input. -/
lemma quantize_zero_bits (lo hi v : ℚ) : quantize lo hi 0 v = 0 := by
  unfold quantize
  norm_num

/-- With 0 bits the reconstruction is the interval midpoint. -/
lemma dequantize_zero_bits (lo hi : ℚ) :
    dequantize lo hi 0 0 = lo + (hi - lo) / 2 := by
  simp [dequantize]
  ring

/-!
## Grid geometry and grid building (spec §3, §4.3)

`PointCloudGrid.hpp` and the `.cpp` implementation are not in the
repository snapshot; all definitions below are modelled from the spec.
-/

/-- Total cell count `N = Dx * Dy * Dz` (spec §3, GridDimensions). -/
def gridCellCount (dims : Vec3N) : ℕ := dims.x * dims.y * dims.z

/-- Per-axis extent of one grid cell, `(hi - lo) / D` (spec §4.3),
modelling the `cell_range` vector of the header's private helpers. -/
def cellExtent (bb : BoundingBox) (dims : Vec3N) : Vec3Q :=
  { x := (bb.max.x - bb.min.x) / (dims.x : ℚ)
    y := (bb.max.y - bb.min.y) / (dims.y : ℚ)
    z := (bb.max.z - bb.min.z) / (dims.z : ℚ) }

/-- Modelled from the spec: a position is accepted into encoding iff it
lies inside the bounding box (spec §3 invariants, §4.3 step 2); per
axis `min ≤ p < max`. -/
def insideBox (bb : BoundingBox) (p : Vec3Q) : Bool :=
  decide ((bb.min.x ≤ p.x ∧ p.x < bb.max.x) ∧ (bb.min.y ≤ p.y ∧ p.y < bb.max.y) ∧
    (bb.min.z ≤ p.z ∧ p.z < bb.max.z))

/-- Per-axis cell coordinate `floor((p - lo) / ext)`, truncated to `ℕ`
(nonnegative for in-box points). -/
def cellCoordN (lo ext p : ℚ) : ℕ := (⌊(p - lo) / ext⌋).toNat

/-- Modelled from the spec: `PointCloudGridEncoder::calcGridCellIndex`
(header line 389, implementation missing): linear cell index
`x + Dx*(y + Dy*z)` of the cell containing `p` (spec §3). -/
def calcGridCellIndex (bb : BoundingBox) (dims : Vec3N) (p : Vec3Q) : ℕ :=
  let ext := cellExtent bb dims
  cellCoordN bb.min.x ext.x p.x +
    dims.x * (cellCoordN bb.min.y ext.y p.y + dims.y * cellCoordN bb.min.z ext.z p.z)

/-- Inverse of the linear cell index: per-axis cell coordinates
recovered by the decoder from a blacklist-adjusted index. -/
def cellCoordsOfIndex (dims : Vec3N) (i : ℕ) : Vec3N :=
  { x := i % dims.x
    y := i / dims.x % dims.y
    z := i / dims.x / dims.y }

/-- Origin of the cell with coordinates `c`:
`lo + cell_index_vector * cell_extent` (spec §4.3 step 3). -/
def cellOrigin (bb : BoundingBox) (dims : Vec3N) (c : Vec3N) : Vec3Q :=
  let ext := cellExtent bb dims
  { x := bb.min.x + (c.x : ℚ) * ext.x
    y := bb.min.y + (c.y : ℚ) * ext.y
    z := bb.min.z + (c.z : ℚ) * ext.z }

/-- Modelled from the spec: `PointCloudGridEncoder::mapToCell` (header
line 394, implementation missing): position in cell-local coordinates,
`local = position - cellOrigin` (spec §4.3 step 3). -/
def mapToCell (bb : BoundingBox) (dims : Vec3N) (p : Vec3Q) : Vec3Q :=
  let ext := cellExtent bb dims
  let o := cellOrigin bb dims
    { x := cellCoordN bb.min.x ext.x p.x
      y := cellCoordN bb.min.y ext.y p.y
      z := cellCoordN bb.min.z ext.z p.z }
  { x := p.x - o.x, y := p.y - o.y, z := p.z - o.z }

/-- A voxel after per-cell quantization: quantized position and colour
triples (spec §3, GridCell storage). -/
structure QVoxel where
  qpos : Vec3N
  qcol : Vec3N
deriving DecidableEq

/-- Position precision record of cell `i` from the descriptor. -/
def pointPrecOf (s : EncodingSettings) (i : ℕ) : Vec3N :=
  s.grid_precision.point_precision.getD i ⟨0, 0, 0⟩

/-- Colour precision record of cell `i` from the descriptor. -/
def colorPrecOf (s : EncodingSettings) (i : ℕ) : Vec3N :=
  s.grid_precision.color_precision.getD i ⟨0, 0, 0⟩

/-- Modelled from the spec: quantization of one voxel into its cell
(spec §4.3 steps 3-4): the cell-local position is quantized against the
cell extent with the cell's position bit widths, the colour channels
against `[0, 255]` with the cell's colour bit widths (§4.2). -/
def quantizeVoxel (s : EncodingSettings) (v : UncompressedVoxel) : QVoxel :=
  let bb := s.grid_precision.bounding_box
  let dims := s.grid_precision.dimensions
  let ext := cellExtent bb dims
  let i := calcGridCellIndex bb dims v.pos
  let pp := pointPrecOf s i
  let cp := colorPrecOf s i
  let lcl := mapToCell bb dims v.pos
  { qpos := ⟨quantize 0 ext.x pp.x lcl.x, quantize 0 ext.y pp.y lcl.y,
             quantize 0 ext.z pp.z lcl.z⟩
    qcol := ⟨quantize 0 255 cp.x (v.color.x : ℚ), quantize 0 255 cp.y (v.color.y : ℚ),
             quantize 0 255 cp.z (v.color.z : ℚ)⟩ }

/-- Modelled from the spec: `PointCloudGrid` (missing
`PointCloudGrid.hpp`): the ordered vector of `N` cells plus the
bounding box and dimensions that produced them. -/
structure PointCloudGrid where
  bounding_box : BoundingBox
  dimensions : Vec3N
  cells : List (List QVoxel)
deriving DecidableEq

/-- Append a quantized voxel to cell `i` (insertion order, spec §4.3). -/
def insertVoxel (g : List (List QVoxel)) (i : ℕ) (q : QVoxel) :
    List (List QVoxel) :=
  g.set i (g.getD i [] ++ [q])

/-- One step of the grid build: a voxel inside the bounding box is
quantized and appended to its cell, an out-of-box voxel is dropped
silently (spec §4.3 step 2). -/
def buildStep (s : EncodingSettings) (g : List (List QVoxel))
    (v : UncompressedVoxel) : List (List QVoxel) :=
  if insideBox s.grid_precision.bounding_box v.pos then
    insertVoxel g
      (calcGridCellIndex s.grid_precision.bounding_box s.grid_precision.dimensions v.pos)
      (quantizeVoxel s v)
  else g

/-- Modelled from the spec:
`PointCloudGridEncoder::buildPointCloudGrid` (header lines 273-279,
implementation missing).  `num_points < 0` means all points, otherwise
the first `num_points` are considered; each considered voxel inside the
bounding box is quantized and appended to its cell, out-of-box voxels
are dropped silently (spec §4.3, §6). -/
def buildPointCloudGrid (s : EncodingSettings)
    (point_cloud : List UncompressedVoxel) (num_points : ℤ) : PointCloudGrid :=
  let considered :=
    if num_points < 0 then point_cloud else point_cloud.take num_points.toNat
  { bounding_box := s.grid_precision.bounding_box
    dimensions := s.grid_precision.dimensions
    cells :=
      considered.foldl (buildStep s)
        (List.replicate (gridCellCount s.grid_precision.dimensions) []) }

/-!
## Message assembly and decode (spec §4.4, §4.5, §7)
-/

/-- The structured content of an encoded `zmq::message_t`: global
header, grid header, blacklist, per-cell header/payload pairs and the
appendix bytes.  The optional entropy stage (§4.6) is an external black
box and is modelled as the identity on this structured content. -/
structure Message where
  global_header : GlobalHeader
  grid_header : GridHeader
  blacklist : List ℕ
  cells : List (CellHeader × List QVoxel)
  appendix : List ℕ
deriving DecidableEq

/-- Cell header written for cell `i` (spec §4.4): the six bit widths of
the cell's precision records and the element count. -/
def mkCellHeader (s : EncodingSettings) (i : ℕ) (cell : List QVoxel) : CellHeader :=
  { cell_idx := i
    point_encoding := pointPrecOf s i
    color_encoding := colorPrecOf s i
    num_elements := cell.length }

/-- Byte size of one cell's bit-packed payload, rounded up to a whole
byte (spec §4.4/§4.5 calc-size policy). -/
def cellPayloadBytes (h : CellHeader) : ℕ :=
  (h.num_elements * (h.point_encoding.x + h.point_encoding.y + h.point_encoding.z +
    h.color_encoding.x + h.color_encoding.y + h.color_encoding.z) + 7) / 8

/-- Modelled from the spec: `PointCloudGridEncoder::calcMessageSize`
(header line 399, implementation missing): deterministic
intermediate-buffer byte size from the cell headers (§4.5). -/
def calcMessageSize (headers : List CellHeader) (num_blacklist : ℕ) : ℕ :=
  GridHeader.getByteSize + sizeofUnsigned * num_blacklist +
    (headers.map fun h => CellHeader.getByteSize + cellPayloadBytes h).sum

/-- Modelled from the spec:
`PointCloudGridEncoder::encodePointCloudGrid` together with
`encodeBlackList` (header lines 291, 340-341, implementations missing):
the blacklist collects, in ascending order, the indices of cells with
no data; only non-blacklisted cells contribute a header/payload pair,
in ascending cell index (spec §4.5 steps 2-5). -/
def encodePointCloudGrid (s : EncodingSettings) (g : PointCloudGrid) : Message :=
  let N := gridCellCount g.dimensions
  let blacklist := (List.range N).filter fun i => decide (g.cells.getD i [] = [])
  let present := (List.range N).filter fun i => !decide (g.cells.getD i [] = [])
  let cells := present.map fun i => (mkCellHeader s i (g.cells.getD i []), g.cells.getD i [])
  let isize := calcMessageSize (cells.map Prod.fst) blacklist.length
  { global_header :=
      { entropy_coding := s.entropy_coding
        uncompressed_size := if s.entropy_coding then isize else 0
        appendix_size := s.appendix_size }
    grid_header :=
      { dimensions := g.dimensions
        bounding_box := g.bounding_box
        num_blacklist := blacklist.length }
    blacklist := blacklist
    cells := cells
    appendix := List.replicate s.appendix_size 0 }

/-- Modelled from the spec: `PointCloudGridEncoder::encode` (header
line 206): build the grid, then serialize it. -/
def encodeMessage (s : EncodingSettings) (point_cloud : List UncompressedVoxel)
    (num_points : ℤ) : Message :=
  encodePointCloudGrid s (buildPointCloudGrid s point_cloud num_points)

/-- Strict ascending-order check on the decoded blacklist (spec §4.5
item 3, §7 FormatError). -/
def ascendingList : List ℕ → Bool
  | [] => true
  | [_] => true
  | a :: b :: t => decide (a < b) && ascendingList (b :: t)

/-- A decoded voxel: reconstructed rational position and colour (spec
§4.2 midpoint reconstruction). -/
structure DecodedVoxel where
  pos : Vec3Q
  color : Vec3Q
deriving DecidableEq

/-- Modelled from the spec: colour reconstruction; a channel with 0
bits reconstructs to 128 independent of input (spec §4.2, §8), other
widths use midpoint dequantization over `[0, 255]`. -/
def colorReconstruct (m : ℕ) (q : ℕ) : ℚ :=
  if m = 0 then 128 else dequantize 0 255 m q

/-- Modelled from the spec: reconstruction of one quantized voxel of
cell `i` (spec §4.3 inverse): absolute position is the cell origin plus
the dequantized cell-local position. -/
def reconstructVoxel (bb : BoundingBox) (dims : Vec3N) (i : ℕ)
    (pp cp : Vec3N) (q : QVoxel) : DecodedVoxel :=
  let ext := cellExtent bb dims
  let o := cellOrigin bb dims (cellCoordsOfIndex dims i)
  { pos := ⟨o.x + dequantize 0 ext.x pp.x q.qpos.x,
            o.y + dequantize 0 ext.y pp.y q.qpos.y,
            o.z + dequantize 0 ext.z pp.z q.qpos.z⟩
    color := ⟨colorReconstruct cp.x q.qcol.x, colorReconstruct cp.y q.qcol.y,
              colorReconstruct cp.z q.qcol.z⟩ }

/-- Modelled from the spec:
`PointCloudGridEncoder::decodePointCloudGrid` plus
`extractPointCloudFromGrid` (header lines 286, 299, implementations
missing).  The FormatError checks of spec §7 are: nonzero dimensions,
blacklist length consistent with the grid header, blacklist sorted
ascending with indices `< N`, cell count consistent with `N`, and each
cell header's `num_elements` matching its payload.  On any failure the
result is `none`; otherwise each non-blacklisted cell index, in
ascending order, is paired with its wire cell and reconstructed. -/
def decodePointCloudGrid (msg : Message) : Option (List DecodedVoxel) :=
  let dims := msg.grid_header.dimensions
  let bb := msg.grid_header.bounding_box
  let N := gridCellCount dims
  if dims.x ≠ 0 ∧ dims.y ≠ 0 ∧ dims.z ≠ 0 ∧
      msg.grid_header.num_blacklist = msg.blacklist.length ∧
      ascendingList msg.blacklist = true ∧
      msg.blacklist.all (fun i => decide (i < N)) = true ∧
      msg.cells.length + msg.blacklist.length = N ∧
      msg.cells.all (fun c => decide (c.1.num_elements = c.2.length)) = true then
    let present := (List.range N).filter fun i => !decide (i ∈ msg.blacklist)
    some ((present.zip msg.cells).flatMap fun ic =>
      ic.2.2.map (reconstructVoxel bb dims ic.1 ic.2.1.point_encoding ic.2.1.color_encoding))
  else none

/-- Modelled from the spec: `PointCloudGridEncoder::decode` (header
line 211): never throws, returns a success flag and fills the output
vector, leaving it empty on failure (spec §6, §7). -/
def decodeMessage (msg : Message) : Bool × List DecodedVoxel :=
  match decodePointCloudGrid msg with
  | none => (false, [])
  | some pc => (true, pc)

/-- Modelled from the spec: `PointCloudGridEncoder::writeToAppendix`
(header line 232, implementation missing): fails and leaves the message
unchanged when `size` exceeds `settings.appendix_size`, otherwise
copies the bytes into the appendix region (spec §4.6, §7
AppendixOverflow). -/
def writeToAppendix (s : EncodingSettings) (msg : Message) (data : List ℕ) :
    Bool × Message :=
  if s.appendix_size < data.length then (false, msg)
  else (true, { msg with appendix := data ++ msg.appendix.drop data.length })

/-- The encoder object: its settings and the owned grid pointer
`pc_grid_`, null (`none`) until an encode or decode runs. -/
structure PointCloudGridEncoder where
  settings : EncodingSettings
  pc_grid : Option PointCloudGrid

/-- Modelled from the spec: the constructor
`PointCloudGridEncoder(const EncodingSettings&)` (header line 197,
implementation missing); per the header comment on `getPointCloudGrid`
the grid is null before any encode or decode. -/
def mkPointCloudGridEncoder (s : EncodingSettings) : PointCloudGridEncoder :=
  { settings := s, pc_grid := none }

namespace PointCloudGridEncoder

/-- Modelled from the spec: the `encode` member (header line 206)
builds the owned grid from the given voxels and the current settings
and returns the serialized message. -/
def encode (e : PointCloudGridEncoder) (point_cloud : List UncompressedVoxel)
    (num_points : ℤ) : PointCloudGridEncoder × Message :=
  let g := buildPointCloudGrid e.settings point_cloud num_points
  ({ e with pc_grid := some g }, encodePointCloudGrid e.settings g)

/-- `PointCloudGridEncoder::getPointCloudGrid` (header lines 213-220):
read-only view of the owned grid. -/
def getPointCloudGrid (e : PointCloudGridEncoder) : Option PointCloudGrid :=
  e.pc_grid

end PointCloudGridEncoder

/-!
## List-level helper lemmas
-/

/-- Splitting a list's length along a boolean predicate. -/
lemma length_filter_not_add {α : Type} (p : α → Bool) :
    ∀ l : List α,
      (l.filter fun a => !p a).length + (l.filter p).length = l.length
  | [] => rfl
  | a :: t => by
    have ih := length_filter_not_add p t
    by_cases h : p a = true
    · simp [List.filter_cons, h]
      omega
    · simp [List.filter_cons, h]
      omega

/-- Zipping a list with its own image pairs every element with its
image. -/
lemma zip_self_map {α β : Type} (f : α → β) :
    ∀ l : List α, l.zip (l.map f) = l.map fun a => (a, f a)
  | [] => rfl
  | a :: t => by simp [zip_self_map f t]

/-- Summing a mapped value over the survivors of a filter equals the
full sum when the value vanishes on the removed elements. -/
lemma sum_map_filter_of_zero {p : ℕ → Bool} {f : ℕ → ℕ}
    (hf : ∀ i, p i = true → f i = 0) :
    ∀ l : List ℕ,
      (((l.filter fun i => !p i).map f).sum = (l.map f).sum)
  | [] => rfl
  | a :: t => by
    have ih := sum_map_filter_of_zero hf t
    by_cases h : p a = true
    · simp [List.filter_cons, h, hf a h, ih]
    · simp [List.filter_cons, h, ih]

/-- Reading every position of a list through `getD` reproduces the
per-cell lengths. -/
lemma sum_map_getD_range :
    ∀ g : List (List QVoxel),
      (((List.range g.length).map fun i => (g.getD i []).length).sum =
        (g.map List.length).sum)
  | [] => rfl
  | c :: t => by
    have ih := sum_map_getD_range t
    rw [List.length_cons, List.range_succ_eq_map, List.map_cons, List.map_map,
      List.sum_cons, List.map_cons, List.sum_cons]
    simp only [Function.comp_def, List.getD_cons_zero, List.getD_cons_succ]
    omega

/-!
## Lemmas about `insertVoxel` and the grid build
-/

/-- `insertVoxel` never changes the number of cells. -/
lemma insertVoxel_length (g : List (List QVoxel)) (i : ℕ) (q : QVoxel) :
    (insertVoxel g i q).length = g.length := by
  simp [insertVoxel]

/-- Inserting into a valid cell grows the total point count by one. -/
lemma insertVoxel_sum :
    ∀ (g : List (List QVoxel)) (i : ℕ) (q : QVoxel), i < g.length →
      ((insertVoxel g i q).map List.length).sum = (g.map List.length).sum + 1
  | [], i, _, h => by simp at h
  | c :: t, 0, q, _ => by
    simp [insertVoxel, List.getD_cons_zero]
    omega
  | c :: t, i + 1, q, h => by
    have ih := insertVoxel_sum t i q (by simpa using h)
    simp only [insertVoxel, List.getD_cons_succ, List.set_cons_succ,
      List.map_cons, List.sum_cons] at ih ⊢
    omega

/-- The inserted voxel lands at the end of its cell. -/
lemma getD_insertVoxel_self :
    ∀ (g : List (List QVoxel)) (i : ℕ) (q : QVoxel), i < g.length →
      (insertVoxel g i q).getD i [] = g.getD i [] ++ [q]
  | [], i, _, h => by simp at h
  | _ :: _, 0, _, _ => by simp [insertVoxel]
  | c :: t, i + 1, q, h => by
    have ih := getD_insertVoxel_self t i q (by simpa using h)
    simpa only [insertVoxel, List.getD_cons_succ, List.set_cons_succ] using ih

/-- Other cells are untouched by an insertion. -/
lemma getD_insertVoxel_ne :
    ∀ (g : List (List QVoxel)) (i j : ℕ) (q : QVoxel), i ≠ j →
      (insertVoxel g i q).getD j [] = g.getD j []
  | [], _, _, _, _ => by simp [insertVoxel]
  | _ :: _, 0, 0, _, h => absurd rfl h
  | _ :: _, 0, _ + 1, _, _ => by simp [insertVoxel]
  | _ :: _, _ + 1, 0, _, _ => by simp [insertVoxel]
  | c :: t, i + 1, j + 1, q, h => by
    have ih := getD_insertVoxel_ne t i j q (by omega)
    simpa only [insertVoxel, List.getD_cons_succ, List.set_cons_succ] using ih

/-- One build step never changes the number of cells. -/
lemma buildStep_length (s : EncodingSettings) (g : List (List QVoxel))
    (v : UncompressedVoxel) : (buildStep s g v).length = g.length := by
  unfold buildStep
  split
  · exact insertVoxel_length ..
  · rfl

/-- The grid build never changes the number of cells. -/
lemma foldl_buildStep_length (s : EncodingSettings) :
    ∀ (vs : List UncompressedVoxel) (g : List (List QVoxel)),
      (vs.foldl (buildStep s) g).length = g.length
  | [], _ => rfl
  | v :: t, g => by
    rw [List.foldl_cons, foldl_buildStep_length s t, buildStep_length]

/-- Cell contents only ever grow during the build. -/
lemma mem_getD_foldl_buildStep (s : EncodingSettings) :
    ∀ (vs : List UncompressedVoxel) (g : List (List QVoxel)) (i : ℕ) (x : QVoxel),
      x ∈ g.getD i [] → x ∈ (vs.foldl (buildStep s) g).getD i []
  | [], _, _, _, hx => hx
  | v :: t, g, i, x, hx => by
    rw [List.foldl_cons]
    refine mem_getD_foldl_buildStep s t _ i x ?_
    unfold buildStep
    split
    · by_cases hij :
        calcGridCellIndex s.grid_precision.bounding_box s.grid_precision.dimensions v.pos = i
      · subst hij
        by_cases hlt :
          calcGridCellIndex s.grid_precision.bounding_box s.grid_precision.dimensions v.pos <
            g.length
        · rw [getD_insertVoxel_self g _ _ hlt]
          exact List.mem_append_left _ hx
        · have hset : insertVoxel g
              (calcGridCellIndex s.grid_precision.bounding_box s.grid_precision.dimensions v.pos)
              (quantizeVoxel s v) = g := by
            unfold insertVoxel
            exact List.set_eq_of_length_le (by omega)
          rw [hset]
          exact hx
      · rw [getD_insertVoxel_ne g _ i _ hij]
        exact hx
    · exact hx

/-- A considered in-box voxel's quantization is present in its cell
after the build. -/
lemma quantizeVoxel_mem_foldl (s : EncodingSettings) :
    ∀ (vs : List UncompressedVoxel) (g : List (List QVoxel)) (v : UncompressedVoxel),
      v ∈ vs → insideBox s.grid_precision.bounding_box v.pos = true →
      calcGridCellIndex s.grid_precision.bounding_box s.grid_precision.dimensions v.pos <
        g.length →
      quantizeVoxel s v ∈ (vs.foldl (buildStep s) g).getD
        (calcGridCellIndex s.grid_precision.bounding_box s.grid_precision.dimensions v.pos) []
  | [], _, _, hv, _, _ => by simp at hv
  | w :: t, g, v, hv, hin, hlt => by
    rw [List.foldl_cons]
    rcases List.mem_cons.mp hv with heq | hmem
    · subst heq
      refine mem_getD_foldl_buildStep s t _ _ _ ?_
      unfold buildStep
      rw [if_pos hin, getD_insertVoxel_self g _ _ hlt]
      exact List.mem_append_right _ (List.mem_singleton_self _)
    · refine quantizeVoxel_mem_foldl s t _ v hmem hin ?_
      rw [buildStep_length]
      exact hlt

/-- The total point count after the build is the number of considered
in-box voxels. -/
lemma foldl_buildStep_sum (s : EncodingSettings) :
    ∀ (vs : List UncompressedVoxel) (g : List (List QVoxel)),
      (∀ v ∈ vs, insideBox s.grid_precision.bounding_box v.pos = true →
        calcGridCellIndex s.grid_precision.bounding_box s.grid_precision.dimensions v.pos <
          g.length) →
      ((vs.foldl (buildStep s) g).map List.length).sum =
        (g.map List.length).sum +
          (vs.filter fun v => insideBox s.grid_precision.bounding_box v.pos).length
  | [], _, _ => by simp
  | v :: t, g, hall => by
    rw [List.foldl_cons]
    have hrest : ∀ w ∈ t, insideBox s.grid_precision.bounding_box w.pos = true →
        calcGridCellIndex s.grid_precision.bounding_box s.grid_precision.dimensions w.pos <
          (buildStep s g v).length := by
      intro w hw hwin
      rw [buildStep_length]
      exact hall w (List.mem_cons_of_mem _ hw) hwin
    have ih := foldl_buildStep_sum s t (buildStep s g v) hrest
    by_cases hin : insideBox s.grid_precision.bounding_box v.pos = true
    · have hstep : ((buildStep s g v).map List.length).sum =
          (g.map List.length).sum + 1 := by
        unfold buildStep
        rw [if_pos hin]
        exact insertVoxel_sum g _ _ (hall v (List.mem_cons_self _ _) hin)
      rw [ih, hstep, List.filter_cons, hin]
      simp only [if_true, List.length_cons]
      omega
    · have hstep : buildStep s g v = g := by
        unfold buildStep
        rw [Bool.not_eq_true] at hin
        rw [hin]
        rfl
      rw [ih, hstep, List.filter_cons]
      rw [Bool.not_eq_true] at hin
      simp [hin]

/-!
## Cell geometry lemmas
-/

/-- Unfolding of the in-box test. -/
lemma insideBox_iff (bb : BoundingBox) (p : Vec3Q) :
    insideBox bb p = true ↔
      (bb.min.x ≤ p.x ∧ p.x < bb.max.x) ∧ (bb.min.y ≤ p.y ∧ p.y < bb.max.y) ∧
        (bb.min.z ≤ p.z ∧ p.z < bb.max.z) := by
  simp [insideBox]

/-- A coordinate strictly inside `[lo, hi)` has cell coordinate below
the axis dimension. -/
lemma cellCoordN_lt (lo hi p : ℚ) (D : ℕ) (h1 : lo ≤ p) (h2 : p < hi)
    (hD : 1 ≤ D) : cellCoordN lo ((hi - lo) / (D : ℚ)) p < D := by
  have hD0 : (0 : ℚ) < (D : ℚ) := by exact_mod_cast hD
  have hext : (0 : ℚ) < (hi - lo) / (D : ℚ) := div_pos (by linarith) hD0
  have hmul : (D : ℚ) * ((hi - lo) / (D : ℚ)) = hi - lo := by field_simp
  have hfrac : (p - lo) / ((hi - lo) / (D : ℚ)) < (D : ℚ) := by
    rw [div_lt_iff₀ hext, hmul]
    linarith
  have hfloor : ⌊(p - lo) / ((hi - lo) / (D : ℚ))⌋ < (D : ℤ) := by
    rw [Int.floor_lt]
    exact_mod_cast hfrac
  unfold cellCoordN
  omega

/-- For an in-range coordinate the truncation in `cellCoordN` is
lossless. -/
lemma cellCoordN_cast (lo ext p : ℚ) (h1 : lo ≤ p) (hext : 0 < ext) :
    ((cellCoordN lo ext p : ℕ) : ℚ) = (⌊(p - lo) / ext⌋ : ℚ) := by
  have h0 : (0 : ℤ) ≤ ⌊(p - lo) / ext⌋ :=
    Int.floor_nonneg.mpr (div_nonneg (by linarith) hext.le)
  unfold cellCoordN
  exact_mod_cast Int.toNat_of_nonneg h0

/-- The cell-local coordinate of an in-box point lies in
`[0, cell extent]`. -/
lemma local_coord_bounds (lo hi p : ℚ) (D : ℕ) (h1 : lo ≤ p) (h2 : p < hi)
    (hD : 1 ≤ D) :
    0 ≤ p - (lo + ((cellCoordN lo ((hi - lo) / (D : ℚ)) p : ℕ) : ℚ) *
        ((hi - lo) / (D : ℚ))) ∧
      p - (lo + ((cellCoordN lo ((hi - lo) / (D : ℚ)) p : ℕ) : ℚ) *
        ((hi - lo) / (D : ℚ))) ≤ (hi - lo) / (D : ℚ) := by
  have hD0 : (0 : ℚ) < (D : ℚ) := by exact_mod_cast hD
  have hext : (0 : ℚ) < (hi - lo) / (D : ℚ) := div_pos (by linarith) hD0
  rw [cellCoordN_cast lo _ p h1 hext]
  have hle : (⌊(p - lo) / ((hi - lo) / (D : ℚ))⌋ : ℚ) ≤ (p - lo) / ((hi - lo) / (D : ℚ)) :=
    Int.floor_le _
  have hlt : (p - lo) / ((hi - lo) / (D : ℚ)) < (⌊(p - lo) / ((hi - lo) / (D : ℚ))⌋ : ℚ) + 1 :=
    Int.lt_floor_add_one _
  have h3 : (⌊(p - lo) / ((hi - lo) / (D : ℚ))⌋ : ℚ) * ((hi - lo) / (D : ℚ)) ≤ p - lo := by
    rw [← le_div_iff₀ hext]
    exact hle
  have h4 : p - lo < ((⌊(p - lo) / ((hi - lo) / (D : ℚ))⌋ : ℚ) + 1) * ((hi - lo) / (D : ℚ)) := by
    rw [← div_lt_iff₀ hext]
    exact hlt
  constructor <;> nlinarith [hext]

/-- Packing then unpacking the linear cell index recovers the per-axis
cell coordinates. -/
lemma linear_index_coords (Dx Dy Dz cx cy cz : ℕ) (hx : cx < Dx) (hy : cy < Dy) :
    (cx + Dx * (cy + Dy * cz)) % Dx = cx ∧
      (cx + Dx * (cy + Dy * cz)) / Dx % Dy = cy ∧
      (cx + Dx * (cy + Dy * cz)) / Dx / Dy = cz := by
  have h0y : 0 < Dy := Nat.lt_of_le_of_lt (Nat.zero_le cy) hy
  have hdiv : (cx + Dx * (cy + Dy * cz)) / Dx = cy + Dy * cz := by
    rw [Nat.add_mul_div_left _ _ (Nat.lt_of_le_of_lt (Nat.zero_le cx) hx),
      Nat.div_eq_of_lt hx, Nat.zero_add]
  refine ⟨?_, ?_, ?_⟩
  · rw [Nat.add_mul_mod_self_left, Nat.mod_eq_of_lt hx]
  · rw [hdiv, Nat.add_mul_mod_self_left, Nat.mod_eq_of_lt hy]
  · rw [hdiv, Nat.add_mul_div_left _ _ h0y, Nat.div_eq_of_lt hy, Nat.zero_add]

/-- The linear cell index of in-range coordinates is below the cell
count. -/
lemma linear_index_lt (Dx Dy Dz cx cy cz : ℕ) (hx : cx < Dx) (hy : cy < Dy)
    (hz : cz < Dz) : cx + Dx * (cy + Dy * cz) < Dx * Dy * Dz := by
  have h1 : cy + Dy * cz + 1 ≤ Dy * Dz := by
    calc cy + Dy * cz + 1 = (cy + 1) + Dy * cz := by ring
      _ ≤ Dy + Dy * cz := by omega
      _ = Dy * (cz + 1) := by ring
      _ ≤ Dy * Dz := Nat.mul_le_mul_left Dy hz
  have h2 : cx + Dx * (cy + Dy * cz) < Dx * (cy + Dy * cz + 1) := by
    have hd : Dx * (cy + Dy * cz + 1) = Dx * (cy + Dy * cz) + Dx := by ring
    omega
  have h3 : Dx * (cy + Dy * cz + 1) ≤ Dx * (Dy * Dz) := Nat.mul_le_mul_left Dx h1
  have h4 : Dx * (Dy * Dz) = Dx * Dy * Dz := by ring
  omega

/-- The cell index of an in-box point is a valid cell. -/
lemma calcGridCellIndex_lt (bb : BoundingBox) (dims : Vec3N) (p : Vec3Q)
    (hin : insideBox bb p = true) (hdx : 1 ≤ dims.x) (hdy : 1 ≤ dims.y)
    (hdz : 1 ≤ dims.z) : calcGridCellIndex bb dims p < gridCellCount dims := by
  obtain ⟨⟨hx1, hx2⟩, ⟨hy1, hy2⟩, hz1, hz2⟩ := (insideBox_iff bb p).mp hin
  have hcx : cellCoordN bb.min.x (cellExtent bb dims).x p.x < dims.x :=
    cellCoordN_lt bb.min.x bb.max.x p.x dims.x hx1 hx2 hdx
  have hcy : cellCoordN bb.min.y (cellExtent bb dims).y p.y < dims.y :=
    cellCoordN_lt bb.min.y bb.max.y p.y dims.y hy1 hy2 hdy
  have hcz : cellCoordN bb.min.z (cellExtent bb dims).z p.z < dims.z :=
    cellCoordN_lt bb.min.z bb.max.z p.z dims.z hz1 hz2 hdz
  show cellCoordN bb.min.x (cellExtent bb dims).x p.x +
      dims.x * (cellCoordN bb.min.y (cellExtent bb dims).y p.y +
        dims.y * cellCoordN bb.min.z (cellExtent bb dims).z p.z) <
    dims.x * dims.y * dims.z
  exact linear_index_lt _ _ _ _ _ _ hcx hcy hcz

/-- Unpacking the index computed for an in-box point recovers the
point's per-axis cell coordinates. -/
lemma cellCoordsOfIndex_calc (bb : BoundingBox) (dims : Vec3N) (p : Vec3Q)
    (hin : insideBox bb p = true) (hdx : 1 ≤ dims.x) (hdy : 1 ≤ dims.y)
    (hdz : 1 ≤ dims.z) :
    cellCoordsOfIndex dims (calcGridCellIndex bb dims p) =
      { x := cellCoordN bb.min.x (cellExtent bb dims).x p.x
        y := cellCoordN bb.min.y (cellExtent bb dims).y p.y
        z := cellCoordN bb.min.z (cellExtent bb dims).z p.z } := by
  obtain ⟨⟨hx1, hx2⟩, ⟨hy1, hy2⟩, hz1, hz2⟩ := (insideBox_iff bb p).mp hin
  have hcx : cellCoordN bb.min.x (cellExtent bb dims).x p.x < dims.x :=
    cellCoordN_lt bb.min.x bb.max.x p.x dims.x hx1 hx2 hdx
  have hcy : cellCoordN bb.min.y (cellExtent bb dims).y p.y < dims.y :=
    cellCoordN_lt bb.min.y bb.max.y p.y dims.y hy1 hy2 hdy
  obtain ⟨e1, e2, e3⟩ := linear_index_coords dims.x dims.y dims.z
    (cellCoordN bb.min.x (cellExtent bb dims).x p.x)
    (cellCoordN bb.min.y (cellExtent bb dims).y p.y)
    (cellCoordN bb.min.z (cellExtent bb dims).z p.z) hcx hcy
  show Vec3N.mk _ _ _ = _
  rw [Vec3N.mk.injEq]
  exact ⟨e1, e2, e3⟩

/-!
## Decoding an encoded message
-/

/-- A strictly increasing list passes the ascending check. -/
lemma ascendingList_of_pairwise :
    ∀ {l : List ℕ}, l.Pairwise (fun a b => a < b) → ascendingList l = true
  | [], _ => rfl
  | [_], _ => rfl
  | a :: b :: t, h => by
    rw [List.pairwise_cons] at h
    have hab : a < b := h.1 b (List.mem_cons_self b t)
    have ht := ascendingList_of_pairwise h.2
    simp [ascendingList, hab, ht]

/-- Decoding a serialized grid succeeds and yields, for each nonempty
cell in ascending index order, the reconstructions of its stored
points. -/
lemma decode_encodePointCloudGrid (s : EncodingSettings) (g : PointCloudGrid)
    (hdx : 1 ≤ g.dimensions.x) (hdy : 1 ≤ g.dimensions.y) (hdz : 1 ≤ g.dimensions.z) :
    decodePointCloudGrid (encodePointCloudGrid s g) =
      some (((List.range (gridCellCount g.dimensions)).filter fun i =>
          !decide (g.cells.getD i [] = [])).flatMap
        fun i => (g.cells.getD i []).map
          (reconstructVoxel g.bounding_box g.dimensions i (pointPrecOf s i)
            (colorPrecOf s i))) := by
  have hfilters := length_filter_not_add (fun i => decide (g.cells.getD i [] = []))
    (List.range (gridCellCount g.dimensions))
  have hasc : ascendingList ((List.range (gridCellCount g.dimensions)).filter fun i =>
      decide (g.cells.getD i [] = [])) = true :=
    ascendingList_of_pairwise
      ((List.pairwise_lt_range _).sublist (List.filter_sublist _))
  have hbl_lt : ∀ i ∈ (List.range (gridCellCount g.dimensions)).filter
      (fun i => decide (g.cells.getD i [] = [])), i < gridCellCount g.dimensions :=
    fun i hi => List.mem_range.mp (List.mem_of_mem_filter hi)
  have hpres : ((List.range (gridCellCount g.dimensions)).filter fun i =>
        !decide (i ∈ (List.range (gridCellCount g.dimensions)).filter
          fun j => decide (g.cells.getD j [] = []))) =
      (List.range (gridCellCount g.dimensions)).filter fun i =>
        !decide (g.cells.getD i [] = []) := by
    refine List.filter_congr ?_
    intro i hi
    have hiff : (i ∈ (List.range (gridCellCount g.dimensions)).filter
        fun j => decide (g.cells.getD j [] = [])) ↔ g.cells.getD i [] = [] := by
      constructor
      · intro hib
        exact of_decide_eq_true (List.mem_filter.mp hib).2
      · intro hemp
        exact List.mem_filter.mpr ⟨hi, decide_eq_true hemp⟩
    rw [decide_eq_decide.mpr hiff]
  simp only [decodePointCloudGrid, encodePointCloudGrid]
  rw [if_pos]
  · rw [hpres, zip_self_map, List.flatMap_map]
    rfl
  · refine ⟨by omega, by omega, by omega, trivial, hasc, ?_, ?_, ?_⟩
    · rw [List.all_eq_true]
      intro i hi
      exact decide_eq_true (hbl_lt i hi)
    · rw [List.length_map]
      simpa using hfilters
    · rw [List.all_eq_true]
      intro c hc
      obtain ⟨i, _, rfl⟩ := List.mem_map.mp hc
      exact decide_eq_true rfl

/-- The built grid carries the dimensions of the settings. -/
lemma buildPointCloudGrid_dimensions (s : EncodingSettings)
    (point_cloud : List UncompressedVoxel) (num_points : ℤ) :
    (buildPointCloudGrid s point_cloud num_points).dimensions =
      s.grid_precision.dimensions := rfl

/-- With the default `num_points = -1` every input voxel is considered. -/
lemma buildPointCloudGrid_cells_neg (s : EncodingSettings)
    (point_cloud : List UncompressedVoxel) :
    (buildPointCloudGrid s point_cloud (-1)).cells =
      point_cloud.foldl (buildStep s)
        (List.replicate (gridCellCount s.grid_precision.dimensions) []) := by
  unfold buildPointCloudGrid
  norm_num

/-!
## Claims C2, C3, C4, C8, C10
-/

/-- C2: encoding never fails (it is a total function of its inputs),
silently drops voxels whose positions fall outside the bounding box,
and the number of voxels produced by `decode(encode(voxels))` equals
the number of input voxels inside the bounding box. -/
theorem c2_count_conservation (s : EncodingSettings)
    (point_cloud : List UncompressedVoxel)
    (hdx : 1 ≤ s.grid_precision.dimensions.x)
    (hdy : 1 ≤ s.grid_precision.dimensions.y)
    (hdz : 1 ≤ s.grid_precision.dimensions.z) :
    (decodeMessage (encodeMessage s point_cloud (-1))).1 = true ∧
      (decodeMessage (encodeMessage s point_cloud (-1))).2.length =
        (point_cloud.filter fun v =>
          insideBox s.grid_precision.bounding_box v.pos).length := by
  have hdec := decode_encodePointCloudGrid s (buildPointCloudGrid s point_cloud (-1))
    hdx hdy hdz
  constructor
  · simp only [encodeMessage, decodeMessage, hdec]
  · simp only [encodeMessage, decodeMessage, hdec]
    rw [buildPointCloudGrid_cells_neg]
    simp only [buildPointCloudGrid_dimensions]
    rw [List.length_flatMap]
    simp only [Function.comp_def, List.length_map]
    have hf : ∀ i : ℕ,
        (decide ((point_cloud.foldl (buildStep s)
          (List.replicate (gridCellCount s.grid_precision.dimensions) [])).getD i [] = [])) =
            true →
        ((point_cloud.foldl (buildStep s)
          (List.replicate (gridCellCount s.grid_precision.dimensions) [])).getD i []).length
            = 0 := by
      intro i hi
      rw [of_decide_eq_true hi]
      rfl
    rw [sum_map_filter_of_zero hf]
    set F := point_cloud.foldl (buildStep s)
      (List.replicate (gridCellCount s.grid_precision.dimensions) []) with hF
    have hFlen : F.length = gridCellCount s.grid_precision.dimensions := by
      rw [hF, foldl_buildStep_length, List.length_replicate]
    rw [← hFlen, sum_map_getD_range, hF]
    have hall : ∀ v ∈ point_cloud,
        insideBox s.grid_precision.bounding_box v.pos = true →
        calcGridCellIndex s.grid_precision.bounding_box s.grid_precision.dimensions v.pos <
          (List.replicate (gridCellCount s.grid_precision.dimensions)
            ([] : List QVoxel)).length := by
      intro v _ hvin
      rw [List.length_replicate]
      exact calcGridCellIndex_lt _ _ _ hvin hdx hdy hdz
    rw [foldl_buildStep_sum s point_cloud _ hall]
    simp

/-- Witness for C2 at a concrete settings value and voxel list: one
in-box voxel and one out-of-box voxel. -/
theorem c2_count_conservation_witness :
    1 ≤ sampleSettings.grid_precision.dimensions.x ∧
      1 ≤ sampleSettings.grid_precision.dimensions.y ∧
      1 ≤ sampleSettings.grid_precision.dimensions.z ∧
      ((decodeMessage (encodeMessage sampleSettings
          [⟨⟨1/2, 1/2, 1/2⟩, ⟨10, 20, 30⟩⟩, ⟨⟨7, 0, 0⟩, ⟨1, 2, 3⟩⟩] (-1))).1 = true ∧
        (decodeMessage (encodeMessage sampleSettings
          [⟨⟨1/2, 1/2, 1/2⟩, ⟨10, 20, 30⟩⟩, ⟨⟨7, 0, 0⟩, ⟨1, 2, 3⟩⟩] (-1))).2.length =
          ([⟨⟨1/2, 1/2, 1/2⟩, ⟨10, 20, 30⟩⟩,
            (⟨⟨7, 0, 0⟩, ⟨1, 2, 3⟩⟩ : UncompressedVoxel)].filter fun v =>
              insideBox sampleSettings.grid_precision.bounding_box v.pos).length) :=
  ⟨by decide, by decide, by decide,
    c2_count_conservation sampleSettings
      [⟨⟨1/2, 1/2, 1/2⟩, ⟨10, 20, 30⟩⟩, ⟨⟨7, 0, 0⟩, ⟨1, 2, 3⟩⟩]
      (by decide) (by decide) (by decide)⟩

/-- C3: decode never throws (it is a total function); on any failed
format check it returns `false` and leaves the output voxel vector
empty. -/
theorem c3_decode_fail_empty (msg : Message)
    (h : (decodeMessage msg).1 = false) : (decodeMessage msg).2 = [] := by
  rcases hd : decodePointCloudGrid msg with _ | pc
  · simp [decodeMessage, hd]
  · exfalso
    simp [decodeMessage, hd] at h

/-- A malformed message: its grid header reports zero dimensions. -/
def badMessage : Message :=
  { global_header := { entropy_coding := false, uncompressed_size := 0, appendix_size := 0 }
    grid_header :=
      { dimensions := ⟨0, 0, 0⟩
        bounding_box := { min := ⟨0, 0, 0⟩, max := ⟨0, 0, 0⟩ }
        num_blacklist := 0 }
    blacklist := []
    cells := []
    appendix := [] }

/-- Witness for C3 on a concrete malformed message. -/
theorem c3_decode_fail_empty_witness :
    (decodeMessage badMessage).1 = false ∧ (decodeMessage badMessage).2 = [] :=
  ⟨by decide, c3_decode_fail_empty badMessage (by decide)⟩

/-- C4: in every encoded message a cell index appears in the blacklist
iff that cell holds zero points; the blacklist is sorted ascending; and
blacklisted cells contribute no cell header/payload pair to the wire
(the wire carries exactly `N - num_blacklist` pairs, each for a
non-blacklisted, nonempty cell). -/
theorem c4_blacklist_properties (s : EncodingSettings)
    (point_cloud : List UncompressedVoxel) (num_points : ℤ) :
    ascendingList (encodeMessage s point_cloud num_points).blacklist = true ∧
      (∀ i : ℕ, i ∈ (encodeMessage s point_cloud num_points).blacklist ↔
        i < gridCellCount s.grid_precision.dimensions ∧
          (buildPointCloudGrid s point_cloud num_points).cells.getD i [] = []) ∧
      (encodeMessage s point_cloud num_points).cells.length +
          (encodeMessage s point_cloud num_points).blacklist.length =
        gridCellCount s.grid_precision.dimensions ∧
      ∀ c ∈ (encodeMessage s point_cloud num_points).cells,
        c.1.cell_idx ∉ (encodeMessage s point_cloud num_points).blacklist ∧ c.2 ≠ [] := by
  simp only [encodeMessage, encodePointCloudGrid, buildPointCloudGrid_dimensions]
  refine ⟨?_, ?_, ?_, ?_⟩
  · exact ascendingList_of_pairwise
      ((List.pairwise_lt_range _).sublist (List.filter_sublist _))
  · intro i
    rw [List.mem_filter, List.mem_range]
    simp
  · rw [List.length_map]
    have := length_filter_not_add
      (fun i => decide ((buildPointCloudGrid s point_cloud num_points).cells.getD i [] = []))
      (List.range (gridCellCount s.grid_precision.dimensions))
    simpa using this
  · intro c hc
    obtain ⟨i, hiP, rfl⟩ := List.mem_map.mp hc
    have hne : ¬ (buildPointCloudGrid s point_cloud num_points).cells.getD i [] = [] := by
      have h2 := (List.mem_filter.mp hiP).2
      simpa using h2
    refine ⟨?_, hne⟩
    intro hib
    exact hne (of_decide_eq_true (List.mem_filter.mp hib).2)

/-- C8: for every message produced by `encode` and every write request:
when the request exceeds `settings.appendix_size` the call fails and
the message is unchanged; otherwise it succeeds and copies the bytes
into the appendix region. -/
theorem c8_write_to_appendix (s : EncodingSettings)
    (point_cloud : List UncompressedVoxel) (num_points : ℤ) (data : List ℕ) :
    (s.appendix_size < data.length →
      writeToAppendix s (encodeMessage s point_cloud num_points) data =
        (false, encodeMessage s point_cloud num_points)) ∧
      (data.length ≤ s.appendix_size →
        writeToAppendix s (encodeMessage s point_cloud num_points) data =
          (true, { encodeMessage s point_cloud num_points with
            appendix := data ++
              (encodeMessage s point_cloud num_points).appendix.drop data.length })) := by
  constructor
  · intro h
    rw [writeToAppendix, if_pos h]
  · intro h
    rw [writeToAppendix, if_neg (Nat.not_lt.mpr h)]

/-- Witness for C8: writing 3 bytes into a 2-byte appendix fails and
leaves the message unchanged. -/
theorem c8_write_to_appendix_witness :
    sampleSettings.appendix_size < [1, 2, 3].length ∧
      writeToAppendix sampleSettings (encodeMessage sampleSettings [] (-1)) [1, 2, 3] =
        (false, encodeMessage sampleSettings [] (-1)) :=
  ⟨by decide, (c8_write_to_appendix sampleSettings [] (-1) [1, 2, 3]).1 (by decide)⟩

/-- C10: `getPointCloudGrid()` is null before any encode or decode has
been performed; after an encode it is the (read-only) grid built from
the given voxel vector and the current settings. -/
theorem c10_get_point_cloud_grid (s : EncodingSettings) :
    (mkPointCloudGridEncoder s).getPointCloudGrid = none ∧
      ∀ (point_cloud : List UncompressedVoxel) (num_points : ℤ),
        (((mkPointCloudGridEncoder s).encode point_cloud num_points).1).getPointCloudGrid =
          some (buildPointCloudGrid s point_cloud num_points) :=
  ⟨rfl, fun _ _ => rfl⟩

/-!
## Claim C1: round-trip loss bound
-/

/-- The per-axis composition the codec applies to a position
coordinate: locate the cell, quantize the cell-local coordinate, then
reconstruct (spec §4.2-§4.3). -/
def axisRecon (lo hi : ℚ) (D n : ℕ) (p : ℚ) : ℚ :=
  let ext := (hi - lo) / (D : ℚ)
  let org := lo + ((cellCoordN lo ext p : ℕ) : ℚ) * ext
  org + dequantize 0 ext n (quantize 0 ext n (p - org))

/-- The reconstruction the codec applies to an in-box voxel: quantize
into its cell on encode, reconstruct from the cell's wire data on
decode. -/
def roundTripVoxel (s : EncodingSettings) (v : UncompressedVoxel) : DecodedVoxel :=
  reconstructVoxel s.grid_precision.bounding_box s.grid_precision.dimensions
    (calcGridCellIndex s.grid_precision.bounding_box s.grid_precision.dimensions v.pos)
    (pointPrecOf s
      (calcGridCellIndex s.grid_precision.bounding_box s.grid_precision.dimensions v.pos))
    (colorPrecOf s
      (calcGridCellIndex s.grid_precision.bounding_box s.grid_precision.dimensions v.pos))
    (quantizeVoxel s v)

/-- The per-axis round trip lands within one quantization step
`((hi - lo) / D) / 2^n` of the original coordinate. -/
lemma axisRecon_bound (lo hi p : ℚ) (D n : ℕ) (h1 : lo ≤ p) (h2 : p < hi)
    (hD : 1 ≤ D) : |axisRecon lo hi D n p - p| ≤ ((hi - lo) / (D : ℚ)) / 2 ^ n := by
  obtain ⟨hb0, hb1⟩ := local_coord_bounds lo hi p D h1 h2 hD
  have key := abs_dequantize_quantize_sub_le 0 ((hi - lo) / (D : ℚ))
    (p - (lo + ((cellCoordN lo ((hi - lo) / (D : ℚ)) p : ℕ) : ℚ) *
      ((hi - lo) / (D : ℚ)))) n hb0 hb1
  rw [sub_zero] at key
  have hrw : axisRecon lo hi D n p - p =
      dequantize 0 ((hi - lo) / (D : ℚ)) n
          (quantize 0 ((hi - lo) / (D : ℚ)) n
            (p - (lo + ((cellCoordN lo ((hi - lo) / (D : ℚ)) p : ℕ) : ℚ) *
              ((hi - lo) / (D : ℚ))))) -
        (p - (lo + ((cellCoordN lo ((hi - lo) / (D : ℚ)) p : ℕ) : ℚ) *
          ((hi - lo) / (D : ℚ)))) := by
    simp only [axisRecon]
    ring
  rw [hrw]
  exact key

/-- A zero-bit axis reconstructs to the cell-box midpoint, independent
of the coordinate's position inside the cell. -/
lemma axisRecon_zero (lo hi p : ℚ) (D : ℕ) :
    axisRecon lo hi D 0 p =
      (lo + ((cellCoordN lo ((hi - lo) / (D : ℚ)) p : ℕ) : ℚ) * ((hi - lo) / (D : ℚ))) +
        ((hi - lo) / (D : ℚ)) / 2 := by
  simp only [axisRecon, quantize_zero_bits, dequantize_zero_bits]
  ring

/-- A colour channel with a positive bit count is reconstructed to
within its quantization step `255 / 2^n`. -/
lemma colorReconstruct_bound (m c : ℕ) (hm : 0 < m) (hc : c ≤ 255) :
    |colorReconstruct m (quantize 0 255 m (c : ℚ)) - (c : ℚ)| ≤ 255 / 2 ^ m := by
  rw [colorReconstruct, if_neg hm.ne']
  have key := abs_dequantize_quantize_sub_le 0 255 (c : ℚ) m (by positivity)
    (by exact_mod_cast hc)
  rw [sub_zero] at key
  exact key

/-- A zero-bit colour channel reconstructs to 128, independent of
input. -/
lemma colorReconstruct_zero (q : ℕ) : colorReconstruct 0 q = 128 := rfl

/-- For an in-box voxel the full reconstruction decomposes into the
per-axis compositions and per-channel colour reconstructions. -/
lemma roundTripVoxel_eq (s : EncodingSettings) (v : UncompressedVoxel)
    (hin : insideBox s.grid_precision.bounding_box v.pos = true)
    (hdx : 1 ≤ s.grid_precision.dimensions.x)
    (hdy : 1 ≤ s.grid_precision.dimensions.y)
    (hdz : 1 ≤ s.grid_precision.dimensions.z) :
    roundTripVoxel s v =
      { pos :=
          ⟨axisRecon s.grid_precision.bounding_box.min.x s.grid_precision.bounding_box.max.x
              s.grid_precision.dimensions.x
              (pointPrecOf s (calcGridCellIndex s.grid_precision.bounding_box
                s.grid_precision.dimensions v.pos)).x v.pos.x,
            axisRecon s.grid_precision.bounding_box.min.y s.grid_precision.bounding_box.max.y
              s.grid_precision.dimensions.y
              (pointPrecOf s (calcGridCellIndex s.grid_precision.bounding_box
                s.grid_precision.dimensions v.pos)).y v.pos.y,
            axisRecon s.grid_precision.bounding_box.min.z s.grid_precision.bounding_box.max.z
              s.grid_precision.dimensions.z
              (pointPrecOf s (calcGridCellIndex s.grid_precision.bounding_box
                s.grid_precision.dimensions v.pos)).z v.pos.z⟩
        color :=
          ⟨colorReconstruct (colorPrecOf s (calcGridCellIndex s.grid_precision.bounding_box
                s.grid_precision.dimensions v.pos)).x
              (quantize 0 255 (colorPrecOf s (calcGridCellIndex s.grid_precision.bounding_box
                s.grid_precision.dimensions v.pos)).x (v.color.x : ℚ)),
            colorReconstruct (colorPrecOf s (calcGridCellIndex s.grid_precision.bounding_box
                s.grid_precision.dimensions v.pos)).y
              (quantize 0 255 (colorPrecOf s (calcGridCellIndex s.grid_precision.bounding_box
                s.grid_precision.dimensions v.pos)).y (v.color.y : ℚ)),
            colorReconstruct (colorPrecOf s (calcGridCellIndex s.grid_precision.bounding_box
                s.grid_precision.dimensions v.pos)).z
              (quantize 0 255 (colorPrecOf s (calcGridCellIndex s.grid_precision.bounding_box
                s.grid_precision.dimensions v.pos)).z (v.color.z : ℚ))⟩ } := by
  have hco := cellCoordsOfIndex_calc s.grid_precision.bounding_box
    s.grid_precision.dimensions v.pos hin hdx hdy hdz
  simp only [roundTripVoxel, reconstructVoxel, hco, quantizeVoxel, mapToCell, cellOrigin,
    axisRecon, cellExtent]

/-- The property asserted by claim C1 for a voxel `v` of the input
`point_cloud`: its reconstruction appears in the decoded output of
`decode(encode(point_cloud))`; each position axis with positive bit
count is reconstructed within the cell's per-axis quantization step
`((max - min) / D) / 2^n`; a zero-bit position axis reconstructs to the
cell-box midpoint; each colour channel with positive bit count is
within its step `255 / 2^n`; a zero-bit colour channel reconstructs to
128, independent of the input value. -/
def c1RoundTripSpec (s : EncodingSettings) (point_cloud : List UncompressedVoxel)
    (v : UncompressedVoxel) : Prop :=
  let bb := s.grid_precision.bounding_box
  let dims := s.grid_precision.dimensions
  let i := calcGridCellIndex bb dims v.pos
  let pp := pointPrecOf s i
  let cp := colorPrecOf s i
  let ext := cellExtent bb dims
  let mid := cellOrigin bb dims (cellCoordsOfIndex dims i)
  let w := roundTripVoxel s v
  w ∈ (decodeMessage (encodeMessage s point_cloud (-1))).2 ∧
  (0 < pp.x → |w.pos.x - v.pos.x| ≤ ((bb.max.x - bb.min.x) / (dims.x : ℚ)) / 2 ^ pp.x) ∧
  (0 < pp.y → |w.pos.y - v.pos.y| ≤ ((bb.max.y - bb.min.y) / (dims.y : ℚ)) / 2 ^ pp.y) ∧
  (0 < pp.z → |w.pos.z - v.pos.z| ≤ ((bb.max.z - bb.min.z) / (dims.z : ℚ)) / 2 ^ pp.z) ∧
  (pp.x = 0 → w.pos.x = mid.x + ext.x / 2) ∧
  (pp.y = 0 → w.pos.y = mid.y + ext.y / 2) ∧
  (pp.z = 0 → w.pos.z = mid.z + ext.z / 2) ∧
  (0 < cp.x → |w.color.x - (v.color.x : ℚ)| ≤ 255 / 2 ^ cp.x) ∧
  (0 < cp.y → |w.color.y - (v.color.y : ℚ)| ≤ 255 / 2 ^ cp.y) ∧
  (0 < cp.z → |w.color.z - (v.color.z : ℚ)| ≤ 255 / 2 ^ cp.z) ∧
  (cp.x = 0 → w.color.x = 128) ∧
  (cp.y = 0 → w.color.y = 128) ∧
  (cp.z = 0 → w.color.z = 128)

/-- C1: for every voxel of the input whose position lies inside the
configured bounding box, after `decode(encode(voxels))` the
reconstruction is within the cell's per-axis quantization step of the
original on each position axis and within its quantization step on each
colour channel; a component with `BitCount = 0` reconstructs to the
cell-box midpoint (position) or 128 (colour), independent of input. -/
theorem c1_roundtrip_bound (s : EncodingSettings)
    (point_cloud : List UncompressedVoxel) (v : UncompressedVoxel)
    (hdx : 1 ≤ s.grid_precision.dimensions.x)
    (hdy : 1 ≤ s.grid_precision.dimensions.y)
    (hdz : 1 ≤ s.grid_precision.dimensions.z)
    (hv : v ∈ point_cloud)
    (hin : insideBox s.grid_precision.bounding_box v.pos = true)
    (hc255x : v.color.x ≤ 255) (hc255y : v.color.y ≤ 255) (hc255z : v.color.z ≤ 255) :
    c1RoundTripSpec s point_cloud v := by
  obtain ⟨⟨hx1, hx2⟩, ⟨hy1, hy2⟩, hz1, hz2⟩ := (insideBox_iff _ _).mp hin
  have heq := roundTripVoxel_eq s v hin hdx hdy hdz
  have hco := cellCoordsOfIndex_calc s.grid_precision.bounding_box
    s.grid_precision.dimensions v.pos hin hdx hdy hdz
  have hidx := calcGridCellIndex_lt s.grid_precision.bounding_box
    s.grid_precision.dimensions v.pos hin hdx hdy hdz
  have hdec := decode_encodePointCloudGrid s (buildPointCloudGrid s point_cloud (-1))
    hdx hdy hdz
  have hmem : quantizeVoxel s v ∈
      (buildPointCloudGrid s point_cloud (-1)).cells.getD
        (calcGridCellIndex s.grid_precision.bounding_box s.grid_precision.dimensions v.pos)
        [] := by
    rw [buildPointCloudGrid_cells_neg]
    refine quantizeVoxel_mem_foldl s point_cloud _ v hv hin ?_
    rw [List.length_replicate]
    exact hidx
  have hmemout : roundTripVoxel s v ∈
      (decodeMessage (encodeMessage s point_cloud (-1))).2 := by
    simp only [encodeMessage, decodeMessage, hdec]
    rw [List.mem_flatMap]
    refine ⟨calcGridCellIndex s.grid_precision.bounding_box
      s.grid_precision.dimensions v.pos, ?_, ?_⟩
    · rw [List.mem_filter]
      refine ⟨List.mem_range.mpr hidx, ?_⟩
      have hne := List.ne_nil_of_mem hmem
      simpa using hne
    · rw [List.mem_map]
      exact ⟨quantizeVoxel s v, hmem, rfl⟩
  simp only [c1RoundTripSpec]
  refine ⟨hmemout, ?_, ?_, ?_, ?_, ?_, ?_, ?_, ?_, ?_, ?_, ?_, ?_⟩
  · intro _
    rw [heq]
    exact axisRecon_bound _ _ _ _ _ hx1 hx2 hdx
  · intro _
    rw [heq]
    exact axisRecon_bound _ _ _ _ _ hy1 hy2 hdy
  · intro _
    rw [heq]
    exact axisRecon_bound _ _ _ _ _ hz1 hz2 hdz
  · intro h0
    rw [heq, hco, h0]
    exact axisRecon_zero _ _ _ _
  · intro h0
    rw [heq, hco, h0]
    exact axisRecon_zero _ _ _ _
  · intro h0
    rw [heq, hco, h0]
    exact axisRecon_zero _ _ _ _
  · intro hm
    rw [heq]
    exact colorReconstruct_bound _ _ hm hc255x
  · intro hm
    rw [heq]
    exact colorReconstruct_bound _ _ hm hc255y
  · intro hm
    rw [heq]
    exact colorReconstruct_bound _ _ hm hc255z
  · intro h0
    rw [heq, h0]
    exact colorReconstruct_zero (quantize 0 255 0 (v.color.x : ℚ))
  · intro h0
    rw [heq, h0]
    exact colorReconstruct_zero (quantize 0 255 0 (v.color.y : ℚ))
  · intro h0
    rw [heq, h0]
    exact colorReconstruct_zero (quantize 0 255 0 (v.color.z : ℚ))

/-- A second concrete settings value, with integer bounding-box
corners, used to instantiate the round-trip theorem. -/
def sampleSettings2 : EncodingSettings :=
  { grid_precision :=
      { bounding_box := { min := ⟨0, 0, 0⟩, max := ⟨4, 4, 4⟩ }
        dimensions := ⟨2, 2, 2⟩
        point_precision := List.replicate 8 ⟨8, 8, 8⟩
        color_precision := List.replicate 8 ⟨8, 8, 8⟩ }
    verbose := false
    num_threads := 24
    irrelevance_coding := true
    entropy_coding := false
    appendix_size := 0 }

/-- Witness for C1 at a concrete settings value and a concrete in-box
voxel. -/
theorem c1_roundtrip_bound_witness :
    (1 ≤ sampleSettings2.grid_precision.dimensions.x ∧
      1 ≤ sampleSettings2.grid_precision.dimensions.y ∧
      1 ≤ sampleSettings2.grid_precision.dimensions.z ∧
      (⟨⟨1, 2, 3⟩, ⟨7, 8, 9⟩⟩ : UncompressedVoxel) ∈
        [(⟨⟨1, 2, 3⟩, ⟨7, 8, 9⟩⟩ : UncompressedVoxel)] ∧
      insideBox sampleSettings2.grid_precision.bounding_box ⟨1, 2, 3⟩ = true ∧
      (7 : ℕ) ≤ 255 ∧ (8 : ℕ) ≤ 255 ∧ (9 : ℕ) ≤ 255) ∧
      c1RoundTripSpec sampleSettings2 [⟨⟨1, 2, 3⟩, ⟨7, 8, 9⟩⟩]
        ⟨⟨1, 2, 3⟩, ⟨7, 8, 9⟩⟩ :=
  ⟨⟨by decide, by decide, by decide, by decide, by decide, by decide, by decide, by decide⟩,
    c1_roundtrip_bound sampleSettings2 [⟨⟨1, 2, 3⟩, ⟨7, 8, 9⟩⟩]
      ⟨⟨1, 2, 3⟩, ⟨7, 8, 9⟩⟩ (by decide) (by decide) (by decide) (by decide)
      (by decide) (by decide) (by decide) (by decide)⟩
